import Mathlib

/-!
# Verification of the SocketChatServer connection/registry engine

Shallow embedding of `src/server.js` (a line-oriented TCP chat server in
Node.js).  JS strings are modelled as `List Char` (a JS string is a sequence
of code units; all protocol text here is ASCII).  The two module-level JS
`Map`s — `clients : Map<username, socket>` and
`socketData : Map<socket, {username, lastActivity, buffer}>` — are modelled as
insertion-ordered association lists with the exact `Map` semantics
(`set` updates in place when the key is present, else appends; `get` returns
the entry for the key; `delete` removes it).  Sockets are identified by `Nat`.
Writing a line to a socket (`sendToSocket`) is modelled as emitting a
`Send := socket × message` event; each operation returns the mutated state
together with the ordered list of emitted sends.
-/

set_option autoImplicit false

namespace ChatServer

/-- A JS string: a sequence of code units (ASCII here, so chars). -/
abbrev JStr := List Char

/-- JS `String.prototype.trim()`: strip leading and trailing whitespace. -/
def trimL (s : JStr) : JStr :=
  ((s.dropWhile Char.isWhitespace).reverse.dropWhile Char.isWhitespace).reverse

/-- JS `String.prototype.toUpperCase()` on ASCII text. -/
def upperL (s : JStr) : JStr :=
  s.map Char.toUpper

/-- JS `parts.join(' ')`. -/
def joinSp (parts : List JStr) : JStr :=
  [' '].intercalate parts

/-! ## The JS `Map` model (insertion-ordered association list) -/

section JsMap

variable {κ ν : Type} [DecidableEq κ]

/-- `Map.prototype.get`. -/
def mapGet : List (κ × ν) → κ → Option ν
  | [], _ => none
  | (k', v') :: rest, k => if k' = k then some v' else mapGet rest k

/-- `Map.prototype.set`: update in place if present, else append. -/
def mapSet : List (κ × ν) → κ → ν → List (κ × ν)
  | [], k, v => [(k, v)]
  | (k', v') :: rest, k, v =>
    if k' = k then (k, v) :: rest else (k', v') :: mapSet rest k v

/-- `Map.prototype.delete`. -/
def mapDelete : List (κ × ν) → κ → List (κ × ν)
  | [], _ => []
  | (k', v') :: rest, k => if k' = k then rest else (k', v') :: mapDelete rest k

/-- `Map.prototype.has`. -/
def mapHas (m : List (κ × ν)) (k : κ) : Bool :=
  (mapGet m k).isSome

end JsMap

/-! ## Server state -/

/-- The per-socket record `{ username, lastActivity, buffer }` stored in
`socketData` (source line 226). -/
structure SessionData where
  username : Option JStr
  lastActivity : Nat
  buffer : JStr
  deriving DecidableEq, Repr

/-- The two module-level maps of the source (lines 8–9): `clients` maps a
username to its socket, `socketData` maps a socket to its session record. -/
structure ServerState where
  clients : List (JStr × Nat)
  socketData : List (Nat × SessionData)
  deriving DecidableEq, Repr

/-- One line written to one socket. -/
abbrev Send := Nat × JStr

/-- State at process start: both maps empty. -/
def initialState : ServerState := ⟨[], []⟩

/-! ## The server functions (translated from `src/server.js`) -/

/-- `broadcast(message, excludeSocket = null)` (lines 19–25): send `message`
to every socket in `clients`, skipping `excludeSocket`. -/
def broadcast (st : ServerState) (message : JStr) (excludeSocket : Option Nat) :
    List Send :=
  st.clients.filterMap fun p =>
    if excludeSocket = some p.2 then none else some (p.2, message)

/-- `sendPrivateMessage(fromUsername, toUsername, text)` (lines 27–36):
deliver `DM <from> <text>` to the recipient's socket if present; the `Bool`
is the function's return value. -/
def sendPrivateMessage (st : ServerState) (fromUsername toUsername text : JStr) :
    List Send × Bool :=
  match mapGet st.clients toUsername with
  | none => ([], false)
  | some recipientSocket =>
    ([(recipientSocket, "DM ".data ++ fromUsername ++ [' '] ++ text)], true)

/-- `updateActivity(socket)` (lines 38–43). -/
def updateActivity (st : ServerState) (socket : Nat) (now : Nat) : ServerState :=
  match mapGet st.socketData socket with
  | none => st
  | some data =>
    { st with socketData :=
        mapSet st.socketData socket { data with lastActivity := now } }

/-- `removeUser(socket, notify = true)` (lines 45–59): if the socket has a
logged-in session, drop its username from `clients` and (when `notify`)
broadcast the departure; always drop the socket from `socketData`. -/
def removeUser (st : ServerState) (socket : Nat) (notify : Bool) :
    ServerState × List Send :=
  match mapGet st.socketData socket with
  | none => ({ st with socketData := mapDelete st.socketData socket }, [])
  | some data =>
    match data.username with
    | none => ({ st with socketData := mapDelete st.socketData socket }, [])
    | some username =>
      let st1 : ServerState := { st with clients := mapDelete st.clients username }
      let sends :=
        if notify then
          broadcast st1 ("INFO ".data ++ username ++ " disconnected".data) none
        else []
      ({ st1 with socketData := mapDelete st1.socketData socket }, sends)

/-- `isValidUsername(username)` (lines 61–66): non-empty, at most 20 code
units, every char in `[a-zA-Z0-9_-]`. -/
def isUsernameChar (c : Char) : Bool :=
  ('a' ≤ c && c ≤ 'z') || ('A' ≤ c && c ≤ 'Z') || ('0' ≤ c && c ≤ '9') ||
    c = '_' || c = '-'

def isValidUsername (username : JStr) : Bool :=
  decide (0 < username.length) && decide (username.length ≤ 20) &&
    username.all isUsernameChar

/-- `handleLogin(socket, username)` (lines 68–93). -/
def handleLogin (st : ServerState) (socket : Nat) (username : JStr) :
    ServerState × List Send :=
  match mapGet st.socketData socket with
  | none => (st, [])  -- unreachable: callers run only while the session exists
  | some data =>
    if data.username.isSome then
      (st, [(socket, "ERR already-logged-in".data)])
    else if !isValidUsername username then
      (st, [(socket, "ERR invalid-username".data)])
    else if mapHas st.clients username then
      (st, [(socket, "ERR username-taken".data)])
    else
      let st1 : ServerState :=
        { clients := mapSet st.clients username socket
          socketData :=
            mapSet st.socketData socket { data with username := some username } }
      (st1, (socket, "OK".data) ::
        broadcast st1 ("INFO ".data ++ username ++ " joined".data) (some socket))

/-- `handleMessage(socket, text)` (lines 95–112). -/
def handleMessage (st : ServerState) (socket : Nat) (text : JStr) :
    ServerState × List Send :=
  match mapGet st.socketData socket with
  | none => (st, [])  -- unreachable, as in `handleLogin`
  | some data =>
    match data.username with
    | none => (st, [(socket, "ERR not-logged-in".data)])
    | some username =>
      if (trimL text).length = 0 then
        (st, [(socket, "ERR empty-message".data)])
      else
        (st, broadcast st ("MSG ".data ++ username ++ [' '] ++ trimL text) none)

/-- `handleWho(socket)` (lines 114–134). -/
def handleWho (st : ServerState) (socket : Nat) : ServerState × List Send :=
  match mapGet st.socketData socket with
  | none => (st, [])  -- unreachable, as in `handleLogin`
  | some data =>
    match data.username with
    | none => (st, [(socket, "ERR not-logged-in".data)])
    | some _ =>
      let usernames := st.clients.map Prod.fst
      if usernames.length = 0 then
        (st, [(socket, "INFO no-users".data)])
      else
        (st, usernames.map fun u => (socket, "USER ".data ++ u))

/-- `handleDirectMessage(socket, targetUsername, text)` (lines 136–162). -/
def handleDirectMessage (st : ServerState) (socket : Nat)
    (targetUsername text : JStr) : ServerState × List Send :=
  match mapGet st.socketData socket with
  | none => (st, [])  -- unreachable, as in `handleLogin`
  | some data =>
    match data.username with
    | none => (st, [(socket, "ERR not-logged-in".data)])
    | some username =>
      if targetUsername.isEmpty || text.isEmpty then
        (st, [(socket, "ERR invalid-dm-format".data)])
      else if targetUsername = username then
        (st, [(socket, "ERR cannot-dm-self".data)])
      else
        match sendPrivateMessage st username targetUsername (trimL text) with
        | (sends, true) =>
          (st, sends ++ [(socket, "DM-SENT ".data ++ targetUsername)])
        | (_, false) =>
          (st, [(socket, "ERR user-not-found".data)])

/-- `handlePing(socket)` (lines 164–166). -/
def handlePing (st : ServerState) (socket : Nat) : ServerState × List Send :=
  (st, [(socket, "PONG".data)])

/-- `processCommand(socket, line)` (lines 168–220): trim, ignore empty lines,
touch activity, split on single spaces (JS `split(' ')` keeps empty tokens),
uppercase the verb, dispatch. -/
def processCommand (st : ServerState) (socket : Nat) (line : JStr) (now : Nat) :
    ServerState × List Send :=
  let trimmedLine := trimL line
  if trimmedLine.isEmpty then (st, [])
  else
    let st := updateActivity st socket now
    match trimmedLine.splitOn ' ' with
    | [] => (st, [])  -- unreachable: `splitOn` never returns `[]`
    | w :: rest =>
      let command := upperL w
      if command = "LOGIN".data then
        match rest with
        | [] => (st, [(socket, "ERR missing-username".data)])
        | username :: _ => handleLogin st socket username
      else if command = "MSG".data then
        match rest with
        | [] => (st, [(socket, "ERR empty-message".data)])
        | _ :: _ => handleMessage st socket (joinSp rest)
      else if command = "WHO".data then
        handleWho st socket
      else if command = "DM".data then
        match rest with
        | targetUsername :: t :: ts =>
          handleDirectMessage st socket targetUsername (joinSp (t :: ts))
        | _ => (st, [(socket, "ERR invalid-dm-format".data)])
      else if command = "PING".data then
        handlePing st socket
      else
        (st, [(socket, "ERR unknown-command: ".data ++ command)])

/-- The `socketData.set` at the top of `handleConnection` (lines 226–230):
a freshly accepted socket gets an empty, not-logged-in record. -/
def acceptConnection (st : ServerState) (socket : Nat) (now : Nat) : ServerState :=
  { st with socketData :=
      mapSet st.socketData socket ⟨none, now, []⟩ }

/-- Overwrite a session's buffer (the assignments to `data.buffer` in the
`'data'` listener, lines 254–266). -/
def setBuffer (st : ServerState) (socket : Nat) (buf : JStr) : ServerState :=
  match mapGet st.socketData socket with
  | none => st
  | some data =>
    { st with socketData := mapSet st.socketData socket { data with buffer := buf } }

/-- Split a buffer at its first `'\n'`, if any (JS `indexOf('\n')` plus the
two `substring` calls, lines 257–259). -/
def takeLine : JStr → Option (JStr × JStr)
  | [] => none
  | c :: cs =>
    if c = '\n' then some ([], cs)
    else match takeLine cs with
      | none => none
      | some (l, r) => some (c :: l, r)

/-- The `while` loop of the `'data'` listener (lines 257–262): as long as the
session's buffer holds a newline, peel off the first line and process it.
`fuel` bounds the iteration count; every iteration consumes at least one
buffered char and no command handler writes the buffer, so any fuel of at
least the buffer length makes the model agree with the source loop. -/
def drainLoop (fuel : Nat) (st : ServerState) (socket : Nat) (now : Nat)
    (acc : List Send) : ServerState × List Send :=
  match fuel with
  | 0 => (st, acc)
  | fuel + 1 =>
    match mapGet st.socketData socket with
    | none => (st, acc)
    | some data =>
      match takeLine data.buffer with
      | none => (st, acc)
      | some (line, restBuf) =>
        let st1 := setBuffer st socket restBuf
        let (st2, out) := processCommand st1 socket line now
        drainLoop fuel st2 socket now (acc ++ out)

/-- The whole `'data'` listener (lines 250–268): append the chunk, drain
complete lines, then enforce the 4096-byte ceiling on what remains. -/
def dataEvent (st : ServerState) (socket : Nat) (chunk : JStr) (now : Nat) :
    ServerState × List Send :=
  match mapGet st.socketData socket with
  | none => (st, [])
  | some data =>
    let st1 := setBuffer st socket (data.buffer ++ chunk)
    let (st2, out) := drainLoop (data.buffer.length + chunk.length + 1) st1 socket now []
    match mapGet st2.socketData socket with
    | none => (st2, out)
    | some data2 =>
      if 4096 < data2.buffer.length then
        (setBuffer st2 socket [], out ++ [(socket, "ERR message-too-long".data)])
      else
        (st2, out)

/-- One tick of a connection's idle timer (lines 232–248): if the session is
still present and idle past 60000 ms, send the timeout notice, remove the
user (with departure announcement) and destroy the socket. -/
def idleCheck (st : ServerState) (socket : Nat) (now : Nat) :
    ServerState × List Send :=
  match mapGet st.socketData socket with
  | none => (st, [])
  | some data =>
    if 60000 < now - data.lastActivity then
      let (st1, sends) := removeUser st socket true
      (st1, (socket, "ERR idle-timeout".data) :: sends)
    else
      (st, [])

/-- The `SIGINT` handler's broadcast (line 307): the shutdown notice goes
through `broadcast`, i.e. to the sockets in `clients`. -/
def shutdownBroadcast (st : ServerState) : List Send :=
  broadcast st "INFO server-shutting-down".data none

/-- The `SIGINT` handler's destroy loop (lines 309–311): every socket in
`socketData` — logged in or not — has its transport destroyed. -/
def shutdownDestroyed (st : ServerState) : List Nat :=
  st.socketData.map Prod.fst

/-! ## Reachable states

One step of the server: accepting a fresh connection (its socket is a new
object, hence not a key of `socketData`), a `'data'` event, a clean `'end'`,
an `'error'` (which suppresses the departure notice), or one idle-timer
tick. -/

inductive Step : ServerState → ServerState → Prop where
  | accept (st : ServerState) (socket now : Nat) :
      mapGet st.socketData socket = none → Step st (acceptConnection st socket now)
  | dataEv (st : ServerState) (socket : Nat) (chunk : JStr) (now : Nat) :
      Step st (dataEvent st socket chunk now).1
  | disconnect (st : ServerState) (socket : Nat) :
      Step st (removeUser st socket true).1
  | socketError (st : ServerState) (socket : Nat) :
      Step st (removeUser st socket false).1
  | idle (st : ServerState) (socket now : Nat) :
      Step st (idleCheck st socket now).1

inductive Reachable : ServerState → Prop where
  | init : Reachable initialState
  | step {st st' : ServerState} : Reachable st → Step st st' → Reachable st'

/-! ## The registry invariant -/

/-- The username index and the session store are mutually consistent:
both maps have distinct keys, every index entry points to a session holding
that username, and every session holding a username has its index entry. -/
structure Inv (st : ServerState) : Prop where
  clientsNodup : (st.clients.map Prod.fst).Nodup
  sdNodup : (st.socketData.map Prod.fst).Nodup
  sound : ∀ u socket, mapGet st.clients u = some socket →
    ∃ d, mapGet st.socketData socket = some d ∧ d.username = some u
  complete : ∀ socket d u, mapGet st.socketData socket = some d →
    d.username = some u → mapGet st.clients u = some socket

/-- Executable check equivalent to `Inv` on concrete states. -/
def invCheck (st : ServerState) : Bool :=
  decide (st.clients.map Prod.fst).Nodup &&
  decide (st.socketData.map Prod.fst).Nodup &&
  (st.clients.all fun p =>
    (mapGet st.socketData p.2).map SessionData.username == some (some p.1)) &&
  (st.socketData.all fun q =>
    match q.2.username with
    | none => true
    | some u => mapGet st.clients u == some q.1)

/-! ## Lemmas about the `Map` model -/

section JsMapLemmas

variable {κ ν : Type} [DecidableEq κ]

theorem mapGet_mapSet_self (m : List (κ × ν)) (k : κ) (v : ν) :
    mapGet (mapSet m k v) k = some v := by
  induction m with
  | nil => simp [mapGet, mapSet]
  | cons p rest ih =>
    by_cases h : p.1 = k <;> simp [mapGet, mapSet, h, ih]

theorem mapGet_mapSet_ne (m : List (κ × ν)) {k k' : κ} (v : ν) (h : k' ≠ k) :
    mapGet (mapSet m k v) k' = mapGet m k' := by
  have h' : ¬k = k' := fun he => h he.symm
  induction m with
  | nil => simp [mapGet, mapSet, h']
  | cons p rest ih =>
    by_cases hp : p.1 = k
    · subst hp
      simp [mapGet, mapSet, h']
    · by_cases hp' : p.1 = k' <;> simp [mapGet, mapSet, hp, hp', ih, h]

theorem mapGet_eq_none_iff (m : List (κ × ν)) (k : κ) :
    mapGet m k = none ↔ k ∉ m.map Prod.fst := by
  induction m with
  | nil => simp [mapGet]
  | cons p rest ih =>
    rw [List.map_cons, List.mem_cons]
    by_cases h : p.1 = k
    · simp [mapGet, h]
    · have h' : ¬k = p.1 := fun he => h he.symm
      simp [mapGet, h, ih, h']

theorem mapGet_mem {m : List (κ × ν)} {k : κ} {v : ν}
    (h : mapGet m k = some v) : (k, v) ∈ m := by
  induction m with
  | nil => simp [mapGet] at h
  | cons p rest ih =>
    by_cases hp : p.1 = k
    · subst hp
      simp [mapGet] at h
      subst h
      exact List.mem_cons_self _ _
    · simp [mapGet, hp] at h
      exact List.mem_cons_of_mem _ (ih h)

omit [DecidableEq κ] in
theorem mem_keys_of_mem {m : List (κ × ν)} {k : κ} {v : ν}
    (h : (k, v) ∈ m) : k ∈ m.map Prod.fst :=
  List.mem_map.2 ⟨(k, v), h, rfl⟩

theorem mapGet_eq_some_of_mem {m : List (κ × ν)} {k : κ} {v : ν}
    (hnd : (m.map Prod.fst).Nodup) (h : (k, v) ∈ m) : mapGet m k = some v := by
  induction m with
  | nil => simp at h
  | cons p rest ih =>
    rw [List.map_cons, List.nodup_cons] at hnd
    rcases List.mem_cons.1 h with h | h
    · subst h
      simp [mapGet]
    · have hk : p.1 ≠ k := by
        intro he
        exact hnd.1 (he ▸ mem_keys_of_mem h)
      simp [mapGet, hk]
      exact ih hnd.2 h

theorem mapSet_of_get_none {m : List (κ × ν)} {k : κ} (v : ν)
    (h : mapGet m k = none) : mapSet m k v = m ++ [(k, v)] := by
  induction m with
  | nil => simp [mapSet]
  | cons p rest ih =>
    by_cases hp : p.1 = k
    · simp [mapGet, hp] at h
    · simp [mapGet, hp] at h
      simp [mapSet, hp, ih h]

theorem mapSet_of_get_self {m : List (κ × ν)} {k : κ} {v : ν}
    (h : mapGet m k = some v) : mapSet m k v = m := by
  induction m with
  | nil => simp [mapGet] at h
  | cons p rest ih =>
    by_cases hp : p.1 = k
    · obtain ⟨k', v'⟩ := p
      simp only at hp
      subst hp
      simp [mapGet] at h
      simp [mapSet, h]
    · simp [mapGet, hp] at h
      simp [mapSet, hp, ih h]

theorem mapSet_mapSet (m : List (κ × ν)) (k : κ) (v w : ν) :
    mapSet (mapSet m k v) k w = mapSet m k w := by
  induction m with
  | nil => simp [mapSet]
  | cons p rest ih =>
    by_cases hp : p.1 = k <;> simp [mapSet, hp, ih]

theorem keys_mapSet_of_get_some {m : List (κ × ν)} {k : κ} {v0 : ν} (v : ν)
    (h : mapGet m k = some v0) :
    (mapSet m k v).map Prod.fst = m.map Prod.fst := by
  induction m with
  | nil => simp [mapGet] at h
  | cons p rest ih =>
    by_cases hp : p.1 = k
    · simp [mapSet, hp]
    · simp [mapGet, hp] at h
      simp [mapSet, hp, ih h]

theorem nodup_keys_mapSet {m : List (κ × ν)} (k : κ) (v : ν)
    (hnd : (m.map Prod.fst).Nodup) : ((mapSet m k v).map Prod.fst).Nodup := by
  rcases h : mapGet m k with _ | v0
  · rw [mapSet_of_get_none v h]
    rw [mapGet_eq_none_iff] at h
    rw [List.map_append]
    refine List.Nodup.append hnd (List.nodup_singleton k) ?_
    intro a ha hb
    simp at hb
    subst hb
    exact h ha
  · rw [keys_mapSet_of_get_some v h]
    exact hnd

theorem mapDelete_sublist (m : List (κ × ν)) (k : κ) :
    (mapDelete m k).Sublist m := by
  induction m with
  | nil => simp [mapDelete]
  | cons p rest ih =>
    by_cases hp : p.1 = k
    · simp [mapDelete, hp]
    · simp [mapDelete, hp]
      exact ih

theorem nodup_keys_mapDelete {m : List (κ × ν)} (k : κ)
    (hnd : (m.map Prod.fst).Nodup) : ((mapDelete m k).map Prod.fst).Nodup :=
  ((mapDelete_sublist m k).map Prod.fst).nodup hnd

theorem mapGet_mapDelete_self {m : List (κ × ν)} (k : κ)
    (hnd : (m.map Prod.fst).Nodup) : mapGet (mapDelete m k) k = none := by
  induction m with
  | nil => simp [mapDelete, mapGet]
  | cons p rest ih =>
    rw [List.map_cons, List.nodup_cons] at hnd
    by_cases hp : p.1 = k
    · subst hp
      rw [mapGet_eq_none_iff]
      simp only [mapDelete, if_pos rfl]
      exact hnd.1
    · simp [mapDelete, mapGet, hp, ih hnd.2]

theorem mapGet_mapDelete_ne (m : List (κ × ν)) {k k' : κ} (h : k' ≠ k) :
    mapGet (mapDelete m k) k' = mapGet m k' := by
  induction m with
  | nil => simp [mapDelete]
  | cons p rest ih =>
    by_cases hp : p.1 = k
    · subst hp
      simp [mapDelete, mapGet, Ne.symm h]
    · by_cases hp' : p.1 = k' <;> simp [mapDelete, mapGet, hp, hp', ih, h]

theorem mapDelete_of_get_none {m : List (κ × ν)} {k : κ}
    (h : mapGet m k = none) : mapDelete m k = m := by
  induction m with
  | nil => simp [mapDelete]
  | cons p rest ih =>
    by_cases hp : p.1 = k
    · simp [mapGet, hp] at h
    · simp [mapGet, hp] at h
      simp [mapDelete, hp, ih h]

theorem mapGet_append (m₁ m₂ : List (κ × ν)) (k : κ) :
    mapGet (m₁ ++ m₂) k =
      match mapGet m₁ k with
      | some v => some v
      | none => mapGet m₂ k := by
  induction m₁ with
  | nil => simp [mapGet]
  | cons p rest ih =>
    by_cases hp : p.1 = k <;> simp [mapGet, hp, ih]

theorem mapGet_mapSet_proj {β : Type} (f : ν → β) (d' : ν) {m : List (κ × ν)}
    {k : κ} {d : ν} (hd : mapGet m k = some d) (hf : f d' = f d) (k' : κ) :
    (mapGet (mapSet m k d') k').map f = (mapGet m k').map f := by
  by_cases h : k' = k
  · subst h
    rw [mapGet_mapSet_self, hd]
    simp [hf]
  · rw [mapGet_mapSet_ne _ _ h]

end JsMapLemmas

/-! ## Basic facts about the state operations -/

theorem updateActivity_clients (st : ServerState) (socket now : Nat) :
    (updateActivity st socket now).clients = st.clients := by
  rcases h : mapGet st.socketData socket with _ | d <;> simp [updateActivity, h]

theorem updateActivity_username (st : ServerState) (socket now : Nat) (k : Nat) :
    (mapGet (updateActivity st socket now).socketData k).map SessionData.username
      = (mapGet st.socketData k).map SessionData.username := by
  rcases h : mapGet st.socketData socket with _ | d
  · simp [updateActivity, h]
  · simp only [updateActivity, h]
    exact mapGet_mapSet_proj SessionData.username { d with lastActivity := now } h rfl k

theorem updateActivity_get_self {st : ServerState} {socket : Nat} {d : SessionData}
    (now : Nat) (hd : mapGet st.socketData socket = some d) :
    mapGet (updateActivity st socket now).socketData socket
      = some { d with lastActivity := now } := by
  simp [updateActivity, hd, mapGet_mapSet_self]

theorem setBuffer_clients (st : ServerState) (socket : Nat) (buf : JStr) :
    (setBuffer st socket buf).clients = st.clients := by
  rcases h : mapGet st.socketData socket with _ | d <;> simp [setBuffer, h]

theorem setBuffer_get_self {st : ServerState} {socket : Nat} {d : SessionData}
    (buf : JStr) (hd : mapGet st.socketData socket = some d) :
    mapGet (setBuffer st socket buf).socketData socket
      = some { d with buffer := buf } := by
  simp [setBuffer, hd, mapGet_mapSet_self]

theorem handleMessage_fst (st : ServerState) (socket : Nat) (text : JStr) :
    (handleMessage st socket text).1 = st := by
  rcases h : mapGet st.socketData socket with _ | d
  · simp [handleMessage, h]
  · rcases hu : d.username with _ | u
    · simp [handleMessage, h, hu]
    · simp only [handleMessage, h, hu]
      split <;> rfl

theorem handleWho_fst (st : ServerState) (socket : Nat) :
    (handleWho st socket).1 = st := by
  rcases h : mapGet st.socketData socket with _ | d
  · simp [handleWho, h]
  · rcases hu : d.username with _ | u
    · simp [handleWho, h, hu]
    · simp only [handleWho, h, hu]
      split <;> rfl

theorem handleDirectMessage_fst (st : ServerState) (socket : Nat)
    (targetUsername text : JStr) :
    (handleDirectMessage st socket targetUsername text).1 = st := by
  rcases h : mapGet st.socketData socket with _ | d
  · simp [handleDirectMessage, h]
  · rcases hu : d.username with _ | u
    · simp [handleDirectMessage, h, hu]
    · simp only [handleDirectMessage, h, hu]
      split
      · rfl
      · split
        · rfl
        · rcases hs : sendPrivateMessage st u targetUsername (trimL text)
            with ⟨sends, b⟩
          cases b <;> simp [hs]

theorem handlePing_fst (st : ServerState) (socket : Nat) :
    (handlePing st socket).1 = st := rfl

/-! ## Invariant preservation -/

theorem inv_mapSet_same_username {st : ServerState} {socket : Nat}
    {d d' : SessionData} (hInv : Inv st)
    (hd : mapGet st.socketData socket = some d) (hu : d'.username = d.username) :
    Inv { st with socketData := mapSet st.socketData socket d' } := by
  refine ⟨hInv.clientsNodup, nodup_keys_mapSet _ _ hInv.sdNodup, ?_, ?_⟩
  · intro u s hs
    obtain ⟨e, he, heu⟩ := hInv.sound u s hs
    by_cases h : s = socket
    · subst h
      have hde : d = e := by
        rw [hd] at he
        exact Option.some.inj he
      refine ⟨d', mapGet_mapSet_self _ _ _, ?_⟩
      rw [hu, hde, heu]
    · rw [mapGet_mapSet_ne _ _ h]
      exact ⟨e, he, heu⟩
  · intro s e u hse heu
    by_cases h : s = socket
    · subst h
      rw [mapGet_mapSet_self] at hse
      have he' : d' = e := Option.some.inj hse
      refine hInv.complete _ d u hd ?_
      rw [← hu, he', heu]
    · rw [mapGet_mapSet_ne _ _ h] at hse
      exact hInv.complete s e u hse heu

theorem inv_updateActivity {st : ServerState} (socket now : Nat) (hInv : Inv st) :
    Inv (updateActivity st socket now) := by
  rcases h : mapGet st.socketData socket with _ | d
  · simpa [updateActivity, h] using hInv
  · simp only [updateActivity, h]
    exact inv_mapSet_same_username hInv h rfl

theorem inv_setBuffer {st : ServerState} (socket : Nat) (buf : JStr) (hInv : Inv st) :
    Inv (setBuffer st socket buf) := by
  rcases h : mapGet st.socketData socket with _ | d
  · simpa [setBuffer, h] using hInv
  · simp only [setBuffer, h]
    exact inv_mapSet_same_username hInv h rfl

theorem inv_acceptConnection {st : ServerState} (socket now : Nat)
    (hfresh : mapGet st.socketData socket = none) (hInv : Inv st) :
    Inv (acceptConnection st socket now) := by
  refine ⟨hInv.clientsNodup, nodup_keys_mapSet _ _ hInv.sdNodup, ?_, ?_⟩
  · intro u s hs
    obtain ⟨e, he, heu⟩ := hInv.sound u s hs
    have hne : s ≠ socket := by
      intro h
      rw [h, hfresh] at he
      exact Option.noConfusion he
    rw [acceptConnection]
    rw [mapGet_mapSet_ne _ _ hne]
    exact ⟨e, he, heu⟩
  · intro s e u hse heu
    rw [acceptConnection] at hse
    by_cases h : s = socket
    · subst h
      rw [mapGet_mapSet_self] at hse
      have : (⟨none, now, []⟩ : SessionData) = e := Option.some.inj hse
      rw [← this] at heu
      exact Option.noConfusion heu
    · rw [mapGet_mapSet_ne _ _ h] at hse
      exact hInv.complete s e u hse heu

theorem inv_handleLogin {st : ServerState} (socket : Nat) (username : JStr)
    (hInv : Inv st) : Inv (handleLogin st socket username).1 := by
  rcases hd : mapGet st.socketData socket with _ | d
  · simpa [handleLogin, hd] using hInv
  · rcases hu : d.username with _ | u
    · by_cases hv : isValidUsername username
      · rcases ht : mapGet st.clients username with _ | s
        · -- success branch
          have hhas : mapHas st.clients username = false := by
            simp [mapHas, ht]
          simp only [handleLogin, hd, hu, hv, hhas, Option.isSome_none,
            Bool.false_eq_true, if_false, Bool.not_true, Bool.not_false, if_true]
          refine ⟨nodup_keys_mapSet _ _ hInv.clientsNodup,
            nodup_keys_mapSet _ _ hInv.sdNodup, ?_, ?_⟩
          · intro u' s' hs'
            by_cases hun : u' = username
            · subst hun
              rw [mapGet_mapSet_self] at hs'
              have : socket = s' := Option.some.inj hs'
              subst this
              exact ⟨_, mapGet_mapSet_self _ _ _, rfl⟩
            · rw [mapGet_mapSet_ne _ _ hun] at hs'
              obtain ⟨e, he, heu⟩ := hInv.sound u' s' hs'
              have hne : s' ≠ socket := by
                intro h
                rw [h, hd] at he
                have : d = e := Option.some.inj he
                rw [← this, hu] at heu
                exact Option.noConfusion heu
              rw [mapGet_mapSet_ne _ _ hne]
              exact ⟨e, he, heu⟩
          · intro s' e u' hse heu
            by_cases hs : s' = socket
            · subst hs
              rw [mapGet_mapSet_self] at hse
              have he' : ({ d with username := some username } : SessionData) = e :=
                Option.some.inj hse
              rw [← he'] at heu
              have : username = u' := Option.some.inj heu
              subst this
              exact mapGet_mapSet_self _ _ _
            · rw [mapGet_mapSet_ne _ _ hs] at hse
              have hcl := hInv.complete s' e u' hse heu
              have hne : u' ≠ username := by
                intro h
                rw [h, ht] at hcl
                exact Option.noConfusion hcl
              rw [mapGet_mapSet_ne _ _ hne]
              exact hcl
        · have hhas : mapHas st.clients username = true := by
            simp [mapHas, ht]
          simpa [handleLogin, hd, hu, hv, hhas] using hInv
      · simpa [handleLogin, hd, hu, hv] using hInv
    · simpa [handleLogin, hd, hu] using hInv

theorem inv_removeUser {st : ServerState} (socket : Nat) (notify : Bool)
    (hInv : Inv st) : Inv (removeUser st socket notify).1 := by
  rcases hd : mapGet st.socketData socket with _ | d
  · simp only [removeUser, hd]
    rw [mapDelete_of_get_none hd]
    exact hInv
  · rcases hu : d.username with _ | un
    · simp only [removeUser, hd, hu]
      refine ⟨hInv.clientsNodup, nodup_keys_mapDelete _ hInv.sdNodup, ?_, ?_⟩
      · intro u s hs
        obtain ⟨e, he, heu⟩ := hInv.sound u s hs
        have hne : s ≠ socket := by
          intro h
          rw [h, hd] at he
          have : d = e := Option.some.inj he
          rw [← this, hu] at heu
          exact Option.noConfusion heu
        rw [mapGet_mapDelete_ne _ hne]
        exact ⟨e, he, heu⟩
      · intro s e u hse heu
        by_cases h : s = socket
        · subst h
          rw [mapGet_mapDelete_self _ hInv.sdNodup] at hse
          exact Option.noConfusion hse
        · rw [mapGet_mapDelete_ne _ h] at hse
          exact hInv.complete s e u hse heu
    · simp only [removeUser, hd, hu]
      refine ⟨nodup_keys_mapDelete _ hInv.clientsNodup,
        nodup_keys_mapDelete _ hInv.sdNodup, ?_, ?_⟩
      · intro u s hs
        have hne : u ≠ un := by
          intro h
          rw [h, mapGet_mapDelete_self _ hInv.clientsNodup] at hs
          exact Option.noConfusion hs
        rw [mapGet_mapDelete_ne _ hne] at hs
        obtain ⟨e, he, heu⟩ := hInv.sound u s hs
        have hsne : s ≠ socket := by
          intro h
          rw [h, hd] at he
          have : d = e := Option.some.inj he
          rw [← this, hu] at heu
          have : un = u := Option.some.inj heu
          exact hne this.symm
        rw [mapGet_mapDelete_ne _ hsne]
        exact ⟨e, he, heu⟩
      · intro s e u hse heu
        by_cases h : s = socket
        · subst h
          rw [mapGet_mapDelete_self _ hInv.sdNodup] at hse
          exact Option.noConfusion hse
        · rw [mapGet_mapDelete_ne _ h] at hse
          have hcl := hInv.complete s e u hse heu
          have hne : u ≠ un := by
            intro hun
            subst hun
            have := hInv.complete socket d u hd hu
            rw [this] at hcl
            exact h (Option.some.inj hcl).symm
          rw [mapGet_mapDelete_ne _ hne]
          exact hcl

theorem inv_processCommand {st : ServerState} (socket : Nat) (line : JStr)
    (now : Nat) (hInv : Inv st) : Inv (processCommand st socket line now).1 := by
  have hup : Inv (updateActivity st socket now) := inv_updateActivity socket now hInv
  simp only [processCommand]
  split
  · exact hInv
  · split
    · exact hup
    · split
      · split
        · exact hup
        · exact inv_handleLogin _ _ hup
      · split
        · split
          · exact hup
          · rw [handleMessage_fst]
            exact hup
        · split
          · rw [handleWho_fst]
            exact hup
          · split
            · split
              · rw [handleDirectMessage_fst]
                exact hup
              · exact hup
            · split
              · rw [handlePing_fst]
                exact hup
              · exact hup

theorem inv_drainLoop (fuel : Nat) {st : ServerState} (socket now : Nat)
    (acc : List Send) (hInv : Inv st) :
    Inv (drainLoop fuel st socket now acc).1 := by
  induction fuel generalizing st acc with
  | zero => simpa [drainLoop] using hInv
  | succ fuel ih =>
    rcases hg : mapGet st.socketData socket with _ | data
    · simp only [drainLoop, hg]
      exact hInv
    · rcases htl : takeLine data.buffer with _ | ⟨l, r⟩
      · simp only [drainLoop, hg, htl]
        exact hInv
      · rcases hpc : processCommand (setBuffer st socket r) socket l now
          with ⟨st2, out⟩
        simp only [drainLoop, hg, htl, hpc]
        have h2 : Inv st2 := by
          have h3 := inv_processCommand socket l now (inv_setBuffer socket r hInv)
          rwa [hpc] at h3
        exact ih _ h2

theorem inv_dataEvent {st : ServerState} (socket : Nat) (chunk : JStr)
    (now : Nat) (hInv : Inv st) : Inv (dataEvent st socket chunk now).1 := by
  rcases hg : mapGet st.socketData socket with _ | data
  · simp only [dataEvent, hg]
    exact hInv
  · rcases hdl : drainLoop (data.buffer.length + chunk.length + 1)
        (setBuffer st socket (data.buffer ++ chunk)) socket now []
      with ⟨st2, out⟩
    have h2 : Inv st2 := by
      have h3 := inv_drainLoop (data.buffer.length + chunk.length + 1) socket now
        [] (inv_setBuffer socket (data.buffer ++ chunk) hInv)
      rwa [hdl] at h3
    simp only [dataEvent, hg, hdl]
    rcases hg2 : mapGet st2.socketData socket with _ | data2
    · exact h2
    · by_cases hlen : 4096 < data2.buffer.length
      · simp only [hlen, if_true]
        exact inv_setBuffer socket [] h2
      · simp only [hlen, if_false]
        exact h2

theorem inv_idleCheck {st : ServerState} (socket now : Nat) (hInv : Inv st) :
    Inv (idleCheck st socket now).1 := by
  rcases hg : mapGet st.socketData socket with _ | data
  · simp only [idleCheck, hg]
    exact hInv
  · rcases hr : removeUser st socket true with ⟨st1, sends⟩
    have h1 : Inv st1 := by
      have h3 := inv_removeUser socket true hInv
      rwa [hr] at h3
    by_cases hi : 60000 < now - data.lastActivity
    · simp only [idleCheck, hg, hi, if_true, hr]
      exact h1
    · simp only [idleCheck, hg, hi, if_false]
      exact hInv

theorem inv_initialState : Inv initialState := by
  refine ⟨List.nodup_nil, List.nodup_nil, ?_, ?_⟩
  · intro u s hs
    simp [initialState, mapGet] at hs
  · intro s e u hse heu
    simp [initialState, mapGet] at hse

/-- Every reachable state satisfies the registry invariant. -/
theorem inv_of_reachable {st : ServerState} (h : Reachable st) : Inv st := by
  induction h with
  | init => exact inv_initialState
  | step _ hstep ih =>
    cases hstep with
    | accept socket now hfresh => exact inv_acceptConnection socket now hfresh ih
    | dataEv socket chunk now => exact inv_dataEvent socket chunk now ih
    | disconnect socket => exact inv_removeUser socket true ih
    | socketError socket => exact inv_removeUser socket false ih
    | idle socket now => exact inv_idleCheck socket now ih

/-- `invCheck` soundly establishes `Inv` on concrete states. -/
theorem inv_of_invCheck {st : ServerState} (h : invCheck st = true) : Inv st := by
  unfold invCheck at h
  simp only [Bool.and_eq_true, decide_eq_true_eq, List.all_eq_true] at h
  obtain ⟨⟨⟨h1, h2⟩, h3⟩, h4⟩ := h
  refine ⟨h1, h2, ?_, ?_⟩
  · intro u s hs
    have hmem := mapGet_mem hs
    have h3' := h3 (u, s) hmem
    rcases hg : mapGet st.socketData s with _ | d
    · rw [hg] at h3'
      simp at h3'
    · rw [hg] at h3'
      simp at h3'
      exact ⟨d, rfl, h3'⟩
  · intro s d u hs hu
    have hmem := mapGet_mem hs
    have h4' := h4 (s, d) hmem
    simp only [hu, beq_iff_eq] at h4'
    exact h4'

/-! ## Unfolding `processCommand` by parsed command -/

theorem trimL_ne_nil_of_splitOn {line w : JStr} {rest : List JStr}
    (hp : (trimL line).splitOn ' ' = w :: rest) (hw : w ≠ []) :
    (trimL line).isEmpty = false := by
  rcases h : trimL line with _ | ⟨c, cs⟩
  · rw [h, List.splitOn_nil] at hp
    obtain ⟨h1, h2⟩ := List.cons.inj hp
    exact absurd h1.symm hw
  · rfl

theorem upperL_login : upperL ['L', 'O', 'G', 'I', 'N'] = ['L', 'O', 'G', 'I', 'N'] := by
  decide

theorem upperL_msg : upperL ['M', 'S', 'G'] = ['M', 'S', 'G'] := by decide

theorem upperL_who : upperL ['W', 'H', 'O'] = ['W', 'H', 'O'] := by decide

theorem upperL_dm : upperL ['D', 'M'] = ['D', 'M'] := by decide

theorem processCommand_login {line : JStr} (st : ServerState) (socket : Nat)
    {u : JStr} {rest : List JStr} (now : Nat)
    (hp : (trimL line).splitOn ' ' = "LOGIN".data :: u :: rest) :
    processCommand st socket line now
      = handleLogin (updateActivity st socket now) socket u := by
  have hne := trimL_ne_nil_of_splitOn hp (by decide)
  simp [processCommand, hne, hp, upperL_login]

theorem processCommand_msg_nil {line : JStr} (st : ServerState) (socket : Nat)
    (now : Nat) (hp : (trimL line).splitOn ' ' = ["MSG".data]) :
    processCommand st socket line now
      = (updateActivity st socket now, [(socket, "ERR empty-message".data)]) := by
  have hne := trimL_ne_nil_of_splitOn hp (by decide)
  simp [processCommand, hne, hp, upperL_msg]

theorem processCommand_msg_cons {line : JStr} (st : ServerState) (socket : Nat)
    {r : JStr} {rs : List JStr} (now : Nat)
    (hp : (trimL line).splitOn ' ' = "MSG".data :: r :: rs) :
    processCommand st socket line now
      = handleMessage (updateActivity st socket now) socket (joinSp (r :: rs)) := by
  have hne := trimL_ne_nil_of_splitOn hp (by decide)
  simp [processCommand, hne, hp, upperL_msg]

theorem processCommand_who {line : JStr} (st : ServerState) (socket : Nat)
    {rest : List JStr} (now : Nat)
    (hp : (trimL line).splitOn ' ' = "WHO".data :: rest) :
    processCommand st socket line now
      = handleWho (updateActivity st socket now) socket := by
  have hne := trimL_ne_nil_of_splitOn hp (by decide)
  simp [processCommand, hne, hp, upperL_who]

theorem processCommand_dm {line : JStr} (st : ServerState) (socket : Nat)
    {target t : JStr} {ts : List JStr} (now : Nat)
    (hp : (trimL line).splitOn ' ' = "DM".data :: target :: t :: ts) :
    processCommand st socket line now
      = handleDirectMessage (updateActivity st socket now) socket target
          (joinSp (t :: ts)) := by
  have hne := trimL_ne_nil_of_splitOn hp (by decide)
  simp [processCommand, hne, hp, upperL_dm]

theorem processCommand_dm_nil {line : JStr} (st : ServerState) (socket : Nat)
    (now : Nat) (hp : (trimL line).splitOn ' ' = ["DM".data]) :
    processCommand st socket line now
      = (updateActivity st socket now, [(socket, "ERR invalid-dm-format".data)]) := by
  have hne := trimL_ne_nil_of_splitOn hp (by decide)
  simp [processCommand, hne, hp, upperL_dm]

theorem processCommand_dm_one {line : JStr} (st : ServerState) (socket : Nat)
    {target : JStr} (now : Nat)
    (hp : (trimL line).splitOn ' ' = ["DM".data, target]) :
    processCommand st socket line now
      = (updateActivity st socket now, [(socket, "ERR invalid-dm-format".data)]) := by
  have hne := trimL_ne_nil_of_splitOn hp (by decide)
  simp [processCommand, hne, hp, upperL_dm]

/-! ## Facts about `broadcast` -/

theorem filterMap_if_eq_map {l : List (JStr × Nat)} {msg : JStr} {ex : Option Nat}
    (h : ∀ p ∈ l, ex ≠ some p.2) :
    (l.filterMap fun p => if ex = some p.2 then none else some (p.2, msg))
      = l.map fun p => (p.2, msg) := by
  induction l with
  | nil => rfl
  | cons p rest ih =>
    rw [List.filterMap_cons, if_neg (h p (List.mem_cons_self p rest)),
      List.map_cons, ih fun q hq => h q (List.mem_cons_of_mem _ hq)]

theorem broadcast_none_eq_map (st : ServerState) (msg : JStr) :
    broadcast st msg none = st.clients.map fun p => (p.2, msg) := by
  refine filterMap_if_eq_map fun p hp => ?_
  exact fun h => Option.noConfusion h

theorem mem_broadcast_elim {st : ServerState} {msg m : JStr} {ex : Option Nat}
    {s : Nat} (h : (s, m) ∈ broadcast st msg ex) :
    ∃ u, (u, s) ∈ st.clients ∧ m = msg := by
  obtain ⟨p, hp, he⟩ := List.mem_filterMap.1 h
  by_cases hex : ex = some p.2
  · rw [if_pos hex] at he
    exact Option.noConfusion he
  · rw [if_neg hex] at he
    obtain ⟨h1, h2⟩ := Prod.mk.inj (Option.some.inj he)
    refine ⟨p.1, ?_, h2.symm⟩
    rw [← h1]
    exact hp

theorem mem_broadcast_intro {st : ServerState} {u : JStr} {s : Nat}
    (msg : JStr) {ex : Option Nat} (hmem : (u, s) ∈ st.clients)
    (hex : ex ≠ some s) : (s, msg) ∈ broadcast st msg ex := by
  refine List.mem_filterMap.2 ⟨(u, s), hmem, ?_⟩
  rw [if_neg hex]

/-! ## Facts about line framing -/

theorem takeLine_eq_none {l : JStr} (h : '\n' ∉ l) : takeLine l = none := by
  induction l with
  | nil => rfl
  | cons c cs ih =>
    have hc : c ≠ '\n' := fun he => h (he ▸ List.mem_cons_self c cs)
    have hcs : '\n' ∉ cs := fun hm => h (List.mem_cons_of_mem _ hm)
    simp [takeLine, hc, ih hcs]

theorem takeLine_append {l r : JStr} (h : '\n' ∉ l) :
    takeLine (l ++ '\n' :: r) = some (l, r) := by
  induction l with
  | nil => simp [takeLine]
  | cons c cs ih =>
    have hc : c ≠ '\n' := fun he => h (he ▸ List.mem_cons_self c cs)
    have hcs : '\n' ∉ cs := fun hm => h (List.mem_cons_of_mem _ hm)
    simp [takeLine, hc, ih hcs]

theorem drainLoop_exit {st : ServerState} {socket : Nat} {d : SessionData}
    (fuel now : Nat) (acc : List Send)
    (hd : mapGet st.socketData socket = some d) (h : takeLine d.buffer = none) :
    drainLoop fuel st socket now acc = (st, acc) := by
  cases fuel with
  | zero => rfl
  | succ fuel => simp [drainLoop, hd, h]

theorem drainLoop_step {st : ServerState} {socket : Nat} {d : SessionData}
    {l r : JStr} (fuel now : Nat) (acc : List Send)
    (hd : mapGet st.socketData socket = some d)
    (h : takeLine d.buffer = some (l, r)) :
    drainLoop (fuel + 1) st socket now acc
      = drainLoop fuel (processCommand (setBuffer st socket r) socket l now).1
          socket now
          (acc ++ (processCommand (setBuffer st socket r) socket l now).2) := by
  rcases hpc : processCommand (setBuffer st socket r) socket l now with ⟨st2, out⟩
  simp [drainLoop, hd, h, hpc]

/-! ## More structural facts -/

theorem joinSp_cons (a b : JStr) (l : List JStr) :
    joinSp (a :: b :: l) = a ++ ' ' :: joinSp (b :: l) := by
  simp [joinSp, List.intercalate, List.intersperse]

/-- The code's validity check agrees with the spec's rule: 1–20 characters
drawn from `[a-zA-Z0-9_-]`. -/
theorem isValidUsername_iff (u : JStr) :
    isValidUsername u = true ↔
      1 ≤ u.length ∧ u.length ≤ 20 ∧ ∀ c ∈ u,
        ('a' ≤ c ∧ c ≤ 'z') ∨ ('A' ≤ c ∧ c ≤ 'Z') ∨ ('0' ≤ c ∧ c ≤ '9') ∨
          c = '_' ∨ c = '-' := by
  constructor
  · intro h
    simp only [isValidUsername, Bool.and_eq_true, decide_eq_true_eq,
      List.all_eq_true] at h
    obtain ⟨⟨h1, h2⟩, h3⟩ := h
    refine ⟨h1, h2, fun c hc => ?_⟩
    simpa [isUsernameChar, Bool.or_eq_true, Bool.and_eq_true,
      decide_eq_true_eq, or_assoc] using h3 c hc
  · intro ⟨h1, h2, h3⟩
    simp only [isValidUsername, Bool.and_eq_true, decide_eq_true_eq,
      List.all_eq_true]
    refine ⟨⟨h1, h2⟩, fun c hc => ?_⟩
    simpa [isUsernameChar, Bool.or_eq_true, Bool.and_eq_true,
      decide_eq_true_eq, or_assoc] using h3 c hc

theorem updateActivity_buffer (st : ServerState) (socket now k : Nat) :
    (mapGet (updateActivity st socket now).socketData k).map SessionData.buffer
      = (mapGet st.socketData k).map SessionData.buffer := by
  rcases h : mapGet st.socketData socket with _ | d
  · simp [updateActivity, h]
  · simp only [updateActivity, h]
    exact mapGet_mapSet_proj SessionData.buffer { d with lastActivity := now } h rfl k

theorem handleLogin_buffer (st : ServerState) (socket : Nat) (u : JStr) (k : Nat) :
    (mapGet (handleLogin st socket u).1.socketData k).map SessionData.buffer
      = (mapGet st.socketData k).map SessionData.buffer := by
  rcases hd : mapGet st.socketData socket with _ | d
  · simp [handleLogin, hd]
  · rcases hu : d.username with _ | un
    · by_cases hv : isValidUsername u
      · rcases hh : mapHas st.clients u with _ | _
        · simp only [handleLogin, hd, hu, hv, hh, Option.isSome_none,
            Bool.false_eq_true, if_false, Bool.not_true, Bool.not_false, if_true]
          exact mapGet_mapSet_proj SessionData.buffer
            { d with username := some u } hd rfl k
        · simp [handleLogin, hd, hu, hv, hh]
      · simp [handleLogin, hd, hu, hv]
    · simp [handleLogin, hd, hu]

theorem processCommand_buffer (st : ServerState) (socket : Nat) (line : JStr)
    (now k : Nat) :
    (mapGet (processCommand st socket line now).1.socketData k).map
        SessionData.buffer
      = (mapGet st.socketData k).map SessionData.buffer := by
  simp only [processCommand]
  split
  · rfl
  · split
    · exact updateActivity_buffer st socket now k
    · split
      · split
        · exact updateActivity_buffer st socket now k
        · exact (handleLogin_buffer _ socket _ k).trans
            (updateActivity_buffer st socket now k)
      · split
        · split
          · exact updateActivity_buffer st socket now k
          · rw [handleMessage_fst]
            exact updateActivity_buffer st socket now k
        · split
          · rw [handleWho_fst]
            exact updateActivity_buffer st socket now k
          · split
            · split
              · rw [handleDirectMessage_fst]
                exact updateActivity_buffer st socket now k
              · exact updateActivity_buffer st socket now k
            · split
              · rw [handlePing_fst]
                exact updateActivity_buffer st socket now k
              · exact updateActivity_buffer st socket now k

theorem setBuffer_setBuffer (st : ServerState) (socket : Nat) (b1 b2 : JStr) :
    setBuffer (setBuffer st socket b1) socket b2 = setBuffer st socket b2 := by
  rcases hd : mapGet st.socketData socket with _ | d
  · simp [setBuffer, hd]
  · simp [setBuffer, hd, mapGet_mapSet_self, mapSet_mapSet]

theorem setBuffer_self {st : ServerState} {socket : Nat} {d : SessionData}
    (hd : mapGet st.socketData socket = some d) :
    setBuffer st socket d.buffer = st := by
  simp only [setBuffer, hd]
  have hrec : ({ d with buffer := d.buffer } : SessionData) = d := rfl
  rw [hrec, mapSet_of_get_self hd]

theorem removeUser_fst_socketData (st : ServerState) (socket : Nat) (n : Bool) :
    (removeUser st socket n).1.socketData = mapDelete st.socketData socket := by
  rcases hd : mapGet st.socketData socket with _ | d
  · simp [removeUser, hd]
  · rcases hu : d.username with _ | un <;> simp [removeUser, hd, hu]

/-- Processing one whole line (terminated by its newline) on a connection with
an empty buffer is exactly `processCommand` on that line. -/
theorem dataEvent_single_line {st : ServerState} {socket : Nat} {d : SessionData}
    (hd : mapGet st.socketData socket = some d) (hbuf : d.buffer = [])
    {l : JStr} (hnl : '\n' ∉ l) (now : Nat) :
    dataEvent st socket (l ++ ['\n']) now = processCommand st socket l now := by
  have hset : mapGet (setBuffer st socket (d.buffer ++ (l ++ ['\n']))).socketData
      socket = some { d with buffer := d.buffer ++ (l ++ ['\n']) } :=
    setBuffer_get_self _ hd
  have htake : takeLine ({ d with buffer := d.buffer ++ (l ++ ['\n']) } :
      SessionData).buffer = some (l, []) := by
    show takeLine (d.buffer ++ (l ++ ['\n'])) = some (l, [])
    rw [hbuf]
    simpa using takeLine_append hnl
  have hst1 : setBuffer (setBuffer st socket (d.buffer ++ (l ++ ['\n']))) socket []
      = st := by
    rw [setBuffer_setBuffer]
    calc setBuffer st socket [] = setBuffer st socket d.buffer := by rw [hbuf]
    _ = st := setBuffer_self hd
  obtain ⟨d2, hd2, hb2⟩ : ∃ d2,
      mapGet (processCommand st socket l now).1.socketData socket = some d2 ∧
        d2.buffer = [] := by
    have hp := processCommand_buffer st socket l now socket
    rw [hd] at hp
    rcases hg : mapGet (processCommand st socket l now).1.socketData socket
      with _ | d2
    · rw [hg] at hp
      simp at hp
    · rw [hg] at hp
      simp at hp
      exact ⟨d2, rfl, by rw [hp, hbuf]⟩
  have hdrain : drainLoop (d.buffer.length + (l ++ ['\n']).length + 1)
      (setBuffer st socket (d.buffer ++ (l ++ ['\n']))) socket now []
      = ((processCommand st socket l now).1, (processCommand st socket l now).2) := by
    rw [drainLoop_step _ now [] hset htake, hst1]
    simp only [List.nil_append]
    exact drainLoop_exit _ now _ hd2 (by rw [hb2]; rfl)
  simp only [dataEvent, hd, hdrain, hd2, hb2]
  simp

/-! ## Concrete demonstration states (used as witnesses) -/

/-- A fresh connection on socket 1. -/
def state1 : ServerState := acceptConnection initialState 1 0

/-- Socket 1 has logged in as `alice`. -/
def state2 : ServerState := (dataEvent state1 1 "LOGIN alice\n".data 0).1

/-- A second, not-yet-logged-in connection on socket 2. -/
def state3 : ServerState := acceptConnection state2 2 0

/-- Socket 2 has logged in as `bob`. -/
def state4 : ServerState := (dataEvent state3 2 "LOGIN bob\n".data 0).1

theorem reachable_state3 : Reachable state3 :=
  Reachable.step
    (Reachable.step
      (Reachable.step Reachable.init (Step.accept initialState 1 0 rfl))
      (Step.dataEv state1 1 "LOGIN alice\n".data 0))
    (Step.accept state2 2 0 (by decide))

theorem reachable_state4 : Reachable state4 :=
  Reachable.step reachable_state3 (Step.dataEv state3 2 "LOGIN bob\n".data 0)

/-! ## The claims -/

/-- C1: at every reachable server state the username index and the session
store are mutually consistent — a session holds username `u` exactly when the
index maps `u` to that session's socket (`Inv`, preserved by every step:
login, message handling, session removal, idle eviction) — and consequently
each username is held by at most one session. -/
theorem C1_registry_consistency (st : ServerState) (hR : Reachable st) :
    Inv st ∧
      ∀ s1 s2 d1 d2 u, mapGet st.socketData s1 = some d1 →
        mapGet st.socketData s2 = some d2 →
        d1.username = some u → d2.username = some u → s1 = s2 := by
  have hInv := inv_of_reachable hR
  refine ⟨hInv, fun s1 s2 d1 d2 u h1 h2 hu1 hu2 => ?_⟩
  have e1 := hInv.complete s1 d1 u h1 hu1
  have e2 := hInv.complete s2 d2 u h2 hu2
  rw [e1] at e2
  exact Option.some.inj e2

/-- C1 witness: the invariant holds at the concrete reachable state with
`alice` logged in on socket 1 and a pre-login session on socket 2. -/
theorem C1_registry_consistency_witness : Inv state3 :=
  (C1_registry_consistency state3 reachable_state3).1

/-- C3 counterexample: at a reachable state with a live pre-login session on
socket 2 (it is in `socketData`, so the shutdown handler destroys its
transport), the shutdown broadcast emits a line only to socket 1 — the
not-yet-logged-in session receives no shutdown notice, contradicting the
claim that the notice reaches every live session including those that have
not logged in. -/
theorem C3_cex_prelogin_misses_notice :
    mapGet state3.socketData 2 = some ⟨none, 0, []⟩
    ∧ 2 ∈ shutdownDestroyed state3
    ∧ shutdownBroadcast state3 = [(1, "INFO server-shutting-down".data)] := by
  decide

/-- C3 (amended): on shutdown the notice `INFO server-shutting-down` is
broadcast to every logged-in session (every entry of the username index);
live sessions that have not yet logged in receive no notice; every live
transport — logged in or not — is then destroyed. -/
theorem C3_shutdown_behavior (st : ServerState) (hR : Reachable st) :
    (∀ u s, mapGet st.clients u = some s →
      (s, "INFO server-shutting-down".data) ∈ shutdownBroadcast st)
    ∧ (∀ s d, mapGet st.socketData s = some d → d.username = none →
        ∀ m, (s, m) ∉ shutdownBroadcast st)
    ∧ (∀ s d, mapGet st.socketData s = some d → s ∈ shutdownDestroyed st) := by
  have hInv := inv_of_reachable hR
  refine ⟨?_, ?_, ?_⟩
  · intro u s hs
    exact mem_broadcast_intro _ (mapGet_mem hs) fun h => Option.noConfusion h
  · intro s d hd hdn m hmem
    obtain ⟨u, hu, hm⟩ := mem_broadcast_elim hmem
    obtain ⟨d', hd', hdu'⟩ :=
      hInv.sound u s (mapGet_eq_some_of_mem hInv.clientsNodup hu)
    rw [hd] at hd'
    rw [← Option.some.inj hd', hdn] at hdu'
    exact Option.noConfusion hdu'
  · intro s d hd
    exact mem_keys_of_mem (mapGet_mem hd)

/-- C3 witness: at the concrete reachable state, the logged-in socket 1
receives the notice and the pre-login socket 2 does not. -/
theorem C3_shutdown_behavior_witness :
    (1, "INFO server-shutting-down".data) ∈ shutdownBroadcast state3
    ∧ (2, "INFO server-shutting-down".data) ∉ shutdownBroadcast state3 :=
  ⟨(C3_shutdown_behavior state3 reachable_state3).1 "alice".data 1 (by decide),
   (C3_shutdown_behavior state3 reachable_state3).2.1 2 ⟨none, 0, []⟩
     (by decide) rfl "INFO server-shutting-down".data⟩

/-- C8: session removal is idempotent — after one `removeUser` the second
call (with any `notify` flag) returns the state unchanged and emits nothing:
no departure announcement, no mutation, no error. -/
theorem C8_removeUser_idempotent (st : ServerState) (socket : Nat)
    (n1 n2 : Bool) (hnd : (st.socketData.map Prod.fst).Nodup) :
    removeUser (removeUser st socket n1).1 socket n2
      = ((removeUser st socket n1).1, []) := by
  rcases hr : removeUser st socket n1 with ⟨st1, out1⟩
  have hsd : st1.socketData = mapDelete st.socketData socket := by
    have h1 := removeUser_fst_socketData st socket n1
    rw [hr] at h1
    exact h1
  have hg : mapGet st1.socketData socket = none := by
    rw [hsd]
    exact mapGet_mapDelete_self _ hnd
  have hdel : mapDelete st1.socketData socket = st1.socketData :=
    mapDelete_of_get_none hg
  simp only [removeUser, hg, hdel]

/-- C8 witness: removing `alice`'s session twice at the concrete two-user
state — the second call is a silent no-op. -/
theorem C8_removeUser_idempotent_witness :
    (state4.socketData.map Prod.fst).Nodup
    ∧ removeUser (removeUser state4 1 true).1 1 true
        = ((removeUser state4 1 true).1, []) :=
  ⟨by decide, C8_removeUser_idempotent state4 1 true true (by decide)⟩

/-- C10: at every reachable state, every line emitted by `broadcast` — the
single fan-out used for join notices, MSG delivery, departure announcements
and the shutdown notice — goes to a session present in the username index;
a connected session that has not completed LOGIN receives no broadcast line
of any kind. -/
theorem C10_broadcast_only_logged_in (st : ServerState) (hR : Reachable st)
    (msg : JStr) (ex : Option Nat) (s : Nat) (m : JStr) :
    ((s, m) ∈ broadcast st msg ex →
      ∃ d, mapGet st.socketData s = some d ∧ d.username.isSome = true)
    ∧ ∀ d, mapGet st.socketData s = some d → d.username = none →
        (s, m) ∉ broadcast st msg ex := by
  have hInv := inv_of_reachable hR
  constructor
  · intro hmem
    obtain ⟨u, hu, hm⟩ := mem_broadcast_elim hmem
    obtain ⟨d, hd, hdu⟩ :=
      hInv.sound u s (mapGet_eq_some_of_mem hInv.clientsNodup hu)
    exact ⟨d, hd, by rw [hdu]; rfl⟩
  · intro d hd hdn hmem
    obtain ⟨u, hu, hm⟩ := mem_broadcast_elim hmem
    obtain ⟨d', hd', hdu'⟩ :=
      hInv.sound u s (mapGet_eq_some_of_mem hInv.clientsNodup hu)
    rw [hd] at hd'
    rw [← Option.some.inj hd', hdn] at hdu'
    exact Option.noConfusion hdu'

/-- C10 witness: at the concrete reachable state, the pre-login socket 2
receives no broadcast line. -/
theorem C10_broadcast_only_logged_in_witness :
    (2, "hello".data) ∉ broadcast state3 "hello".data none :=
  (C10_broadcast_only_logged_in state3 reachable_state3 "hello".data none 2
    "hello".data).2 ⟨none, 0, []⟩ (by decide) rfl

/-- C7: `WHO` from a non-logged-in session replies `ERR not-logged-in`; from
a logged-in session it replies exactly one `USER` line per username in the
registry, in snapshot (insertion) order, always containing the requester's
own name, and never the `INFO no-users` line. -/
theorem C7_who_lists_all (st : ServerState) (socket : Nat) (d : SessionData)
    (line : JStr) (rest : List JStr) (now : Nat) (hInv : Inv st)
    (hd : mapGet st.socketData socket = some d)
    (hp : (trimL line).splitOn ' ' = "WHO".data :: rest) :
    (d.username = none →
      processCommand st socket line now
        = (updateActivity st socket now, [(socket, "ERR not-logged-in".data)]))
    ∧ ∀ u, d.username = some u →
        (processCommand st socket line now).2
          = (st.clients.map fun p => (socket, "USER ".data ++ p.1))
        ∧ (socket, "USER ".data ++ u) ∈ (processCommand st socket line now).2
        ∧ (socket, "INFO no-users".data) ∉ (processCommand st socket line now).2 := by
  rw [processCommand_who st socket now hp]
  have hd' := updateActivity_get_self now hd
  constructor
  · intro hu
    simp [handleWho, hd', hu]
  · intro u hu
    have hcl : mapGet st.clients u = some socket := hInv.complete socket d u hd hu
    have hmem : (u, socket) ∈ st.clients := mapGet_mem hcl
    have hne : st.clients ≠ [] := by
      intro h
      rw [h] at hmem
      exact absurd hmem (List.not_mem_nil _)
    have heq : (handleWho (updateActivity st socket now) socket).2
        = st.clients.map fun p => (socket, "USER ".data ++ p.1) := by
      simp only [handleWho, hd', hu]
      rw [updateActivity_clients]
      rw [if_neg (by simp [hne])]
      simp [List.map_map, Function.comp]
    refine ⟨heq, ?_, ?_⟩
    · rw [heq]
      exact List.mem_map.2 ⟨(u, socket), hmem, rfl⟩
    · rw [heq]
      intro hbad
      obtain ⟨p, hp', he⟩ := List.mem_map.1 hbad
      have h2 := congrArg Prod.snd he
      simp at h2

/-- C7 witness: at the state where only `alice` (socket 1) is logged in, WHO
returns exactly one USER line with her own name and not `INFO no-users`. -/
theorem C7_who_lists_all_witness :
    (processCommand state2 1 "WHO".data 0).2 = [(1, "USER alice".data)]
    ∧ (1, "INFO no-users".data) ∉ (processCommand state2 1 "WHO".data 0).2 := by
  have h := (C7_who_lists_all state2 1 ⟨some "alice".data, 0, []⟩ "WHO".data []
    0 (inv_of_invCheck (by decide)) (by decide) (by decide)).2 "alice".data rfl
  refine ⟨?_, h.2.2⟩
  rw [h.1]
  decide

/-- C2: `LOGIN n` — the validity rule is exactly "1–20 chars from
`[a-zA-Z0-9_-]`"; the reply is `already-logged-in` when the session has a
username, else `invalid-username` when `n` fails the rule, else
`username-taken` when `n` is in the index; on each failure the registry
(username index and username assignments) is unchanged.  Otherwise the
username is claimed (index entry appended, session field set), the sender
gets `OK`, and a join notice goes to every other indexed session. -/
theorem C2_login_rules (st : ServerState) (socket : Nat) (d : SessionData)
    (line n : JStr) (rest : List JStr) (now : Nat) (hInv : Inv st)
    (hd : mapGet st.socketData socket = some d)
    (hp : (trimL line).splitOn ' ' = "LOGIN".data :: n :: rest) :
    (isValidUsername n = true ↔ 1 ≤ n.length ∧ n.length ≤ 20 ∧ ∀ c ∈ n,
        ('a' ≤ c ∧ c ≤ 'z') ∨ ('A' ≤ c ∧ c ≤ 'Z') ∨ ('0' ≤ c ∧ c ≤ '9') ∨
          c = '_' ∨ c = '-')
    ∧ (updateActivity st socket now).clients = st.clients
    ∧ (∀ k, (mapGet (updateActivity st socket now).socketData k).map
          SessionData.username = (mapGet st.socketData k).map SessionData.username)
    ∧ (d.username.isSome = true →
        processCommand st socket line now
          = (updateActivity st socket now, [(socket, "ERR already-logged-in".data)]))
    ∧ (d.username = none → isValidUsername n = false →
        processCommand st socket line now
          = (updateActivity st socket now, [(socket, "ERR invalid-username".data)]))
    ∧ (∀ s0, d.username = none → isValidUsername n = true →
        mapGet st.clients n = some s0 →
        processCommand st socket line now
          = (updateActivity st socket now, [(socket, "ERR username-taken".data)]))
    ∧ (d.username = none → isValidUsername n = true → mapGet st.clients n = none →
        (processCommand st socket line now).1.clients = st.clients ++ [(n, socket)]
        ∧ (mapGet (processCommand st socket line now).1.socketData socket).map
            SessionData.username = some (some n)
        ∧ (processCommand st socket line now).2
            = (socket, "OK".data)
              :: st.clients.map fun p => (p.2, "INFO ".data ++ n ++ " joined".data)) := by
  rw [processCommand_login st socket now hp]
  have hd' := updateActivity_get_self now hd
  refine ⟨isValidUsername_iff n, updateActivity_clients st socket now,
    updateActivity_username st socket now, ?_, ?_, ?_, ?_⟩
  · intro hsome
    simp [handleLogin, hd', hsome]
  · intro hnone hval
    simp [handleLogin, hd', hnone, hval]
  · intro s0 hnone hval htaken
    have hhas : mapHas (updateActivity st socket now).clients n = true := by
      rw [updateActivity_clients]
      simp [mapHas, htaken]
    simp [handleLogin, hd', hnone, hval, hhas]
  · intro hnone hval hfree
    have hfree' : mapGet (updateActivity st socket now).clients n = none := by
      rw [updateActivity_clients]
      exact hfree
    have hhas : mapHas (updateActivity st socket now).clients n = false := by
      simp [mapHas, hfree']
    have hnosock : ∀ p ∈ st.clients, some socket ≠ some p.2 := by
      intro p hp' heq
      have hps : p.2 = socket := (Option.some.inj heq).symm
      have hg : mapGet st.clients p.1 = some p.2 :=
        mapGet_eq_some_of_mem hInv.clientsNodup hp'
      obtain ⟨e, he, heu⟩ := hInv.sound p.1 p.2 hg
      rw [hps, hd] at he
      rw [← Option.some.inj he, hnone] at heu
      exact Option.noConfusion heu
    simp only [handleLogin, hd', hhas, hnone, hval, Option.isSome_none,
      Bool.false_eq_true, if_false, Bool.not_true, Bool.not_false, if_true]
    refine ⟨?_, ?_, ?_⟩
    · show mapSet (updateActivity st socket now).clients n socket
        = st.clients ++ [(n, socket)]
      rw [mapSet_of_get_none socket hfree', updateActivity_clients]
    · rw [mapGet_mapSet_self]
      rfl
    · show (socket, "OK".data) :: broadcast _ _ (some socket) = _
      refine congrArg _ ?_
      show List.filterMap _ (mapSet (updateActivity st socket now).clients n socket)
        = _
      rw [mapSet_of_get_none socket hfree', updateActivity_clients,
        List.filterMap_append, filterMap_if_eq_map hnosock]
      simp

/-- C2 witness: at the state with `alice` on socket 1 and a fresh socket 2,
`LOGIN bob` on socket 2 appends the index entry, replies OK and sends the
join notice to socket 1 only. -/
theorem C2_login_rules_witness :
    (processCommand state3 2 "LOGIN bob".data 0).1.clients
        = state3.clients ++ [("bob".data, 2)]
    ∧ (processCommand state3 2 "LOGIN bob".data 0).2
        = (2, "OK".data)
          :: state3.clients.map fun p => (p.2, "INFO ".data ++ "bob".data ++ " joined".data) := by
  have h := (C2_login_rules state3 2 ⟨none, 0, []⟩ "LOGIN bob".data "bob".data
    [] 0 (inv_of_invCheck (by decide)) (by decide) (by decide)).2.2.2.2.2.2
    rfl (by decide) (by decide)
  exact ⟨h.1, h.2.2⟩

/-- C4 counterexample: a not-logged-in session (socket 2) sending `MSG` with
blank text (the line `MSG `, i.e. text `""`) is answered
`ERR empty-message`, not `ERR not-logged-in` — the too-few-tokens check in
`processCommand` runs before any login check, refuting the claim's "always
replies ERR not-logged-in" for every text. -/
theorem C4_cex_blank_msg_before_login :
    mapGet state3.socketData 2 = some ⟨none, 0, []⟩
    ∧ (processCommand state3 2 "MSG ".data 0).2 = [(2, "ERR empty-message".data)]
    ∧ [((2 : Nat), "ERR empty-message".data)]
        ≠ [((2 : Nat), "ERR not-logged-in".data)] := by
  decide

/-- C4 (amended): a `MSG` line that parses to no text tokens (blank text)
replies `ERR empty-message` whatever the login state, with no broadcast;
with text tokens present, a not-logged-in sender gets `ERR not-logged-in`
and no broadcast; a logged-in sender whose joined text trims to empty gets
`ERR empty-message` with no broadcast; otherwise the message
`MSG <u> <trimmed text>` is broadcast to every username-indexed session,
including the sender. -/
theorem C4_msg_rules (st : ServerState) (socket : Nat) (d : SessionData)
    (line : JStr) (rest : List JStr) (now : Nat) (hInv : Inv st)
    (hd : mapGet st.socketData socket = some d)
    (hp : (trimL line).splitOn ' ' = "MSG".data :: rest) :
    (rest = [] → processCommand st socket line now
        = (updateActivity st socket now, [(socket, "ERR empty-message".data)]))
    ∧ (rest ≠ [] → d.username = none → processCommand st socket line now
        = (updateActivity st socket now, [(socket, "ERR not-logged-in".data)]))
    ∧ (∀ u, rest ≠ [] → d.username = some u → trimL (joinSp rest) = [] →
        processCommand st socket line now
          = (updateActivity st socket now, [(socket, "ERR empty-message".data)]))
    ∧ (∀ u, rest ≠ [] → d.username = some u → trimL (joinSp rest) ≠ [] →
        (processCommand st socket line now).2
          = (st.clients.map fun p =>
              (p.2, "MSG ".data ++ u ++ [' '] ++ trimL (joinSp rest)))
        ∧ (socket, "MSG ".data ++ u ++ [' '] ++ trimL (joinSp rest))
            ∈ (processCommand st socket line now).2) := by
  cases rest with
  | nil =>
    exact ⟨fun _ => processCommand_msg_nil st socket now hp,
      fun h => absurd rfl h, fun u h => absurd rfl h, fun u h => absurd rfl h⟩
  | cons r rs =>
    have hd' := updateActivity_get_self now hd
    rw [processCommand_msg_cons st socket now hp]
    refine ⟨fun h => absurd h (List.cons_ne_nil r rs), ?_, ?_, ?_⟩
    · intro _ hu
      simp [handleMessage, hd', hu]
    · intro u _ hu htr
      simp [handleMessage, hd', hu, htr]
    · intro u _ hu htr
      have hlen : ¬(trimL (joinSp (r :: rs))).length = 0 := by
        simpa [List.length_eq_zero] using htr
      have heq : (handleMessage (updateActivity st socket now) socket
          (joinSp (r :: rs))).2
          = st.clients.map fun p =>
              (p.2, "MSG ".data ++ u ++ [' '] ++ trimL (joinSp (r :: rs))) := by
        simp only [handleMessage, hd', hu]
        rw [if_neg hlen]
        show broadcast _ _ none = _
        rw [broadcast_none_eq_map, updateActivity_clients]
      refine ⟨heq, ?_⟩
      rw [heq]
      have hcl : mapGet st.clients u = some socket := hInv.complete socket d u hd hu
      exact List.mem_map.2 ⟨(u, socket), mapGet_mem hcl, rfl⟩

/-- C4 witness: `alice` (socket 1) sends `MSG hi` at the two-user state; the
broadcast goes to every indexed session and includes the sender. -/
theorem C4_msg_rules_witness :
    (processCommand state4 1 "MSG hi".data 0).2
      = (state4.clients.map fun p =>
          (p.2, "MSG ".data ++ "alice".data ++ [' '] ++ trimL (joinSp ["hi".data])))
    ∧ (1, "MSG ".data ++ "alice".data ++ [' '] ++ trimL (joinSp ["hi".data]))
        ∈ (processCommand state4 1 "MSG hi".data 0).2 :=
  (C4_msg_rules state4 1 ⟨some "alice".data, 0, []⟩ "MSG hi".data ["hi".data] 0
    (inv_of_invCheck (by decide)) (by decide) (by decide)).2.2.2 "alice".data
    (by decide) rfl (by decide)

/-- Successful DM delivery in `handleDirectMessage`: with a logged-in sender
`u`, non-empty distinct target present in the index, the tagged message goes
to the target's socket and the confirmation to the sender. -/
theorem dm_success_eq (st : ServerState) (socket : Nat) (d : SessionData)
    (target text : JStr) (s0 : Nat) (u : JStr)
    (hd : mapGet st.socketData socket = some d) (hu : d.username = some u)
    (htar : target ≠ []) (htxt : text ≠ []) (hne : target ≠ u)
    (hs : mapGet st.clients target = some s0) :
    handleDirectMessage st socket target text
      = (st, [(s0, "DM ".data ++ u ++ [' '] ++ trimL text),
              (socket, "DM-SENT ".data ++ target)]) := by
  have e1 : target.isEmpty = false := by
    rcases target with _ | ⟨c, cs⟩
    · exact absurd rfl htar
    · rfl
  have e2 : text.isEmpty = false := by
    rcases text with _ | ⟨c, cs⟩
    · exact absurd rfl htxt
    · rfl
  simp [handleDirectMessage, hd, hu, e1, e2, hne, sendPrivateMessage, hs]

/-- C5 counterexample: a not-logged-in session (socket 2) sending `DM alice`
(too few tokens) is answered `ERR invalid-dm-format`, not
`ERR not-logged-in` — the token-count check in `processCommand` runs before
any login check, refuting the claim's "a non-logged-in sender always
receives ERR not-logged-in". -/
theorem C5_cex_short_dm_before_login :
    mapGet state3.socketData 2 = some ⟨none, 0, []⟩
    ∧ (processCommand state3 2 "DM alice".data 0).2
        = [(2, "ERR invalid-dm-format".data)]
    ∧ [((2 : Nat), "ERR invalid-dm-format".data)]
        ≠ [((2 : Nat), "ERR not-logged-in".data)] := by
  decide

/-- C5 (amended): a `DM` line with fewer than target-plus-text tokens replies
`ERR invalid-dm-format` whatever the login state; with both tokens, a
not-logged-in sender gets `ERR not-logged-in`; a logged-in sender gets
`ERR invalid-dm-format` if target or text is empty, else
`ERR cannot-dm-self` whenever the target equals their own name — regardless
of the registry contents — else `ERR user-not-found` when the target is not
in the index, else delivery of `DM <sender> <trimmed text>` to the target's
socket only plus `DM-SENT <target>` to the sender. -/
theorem C5_dm_rules (st : ServerState) (socket : Nat) (d : SessionData)
    (line : JStr) (rest : List JStr) (now : Nat)
    (hd : mapGet st.socketData socket = some d)
    (hp : (trimL line).splitOn ' ' = "DM".data :: rest) :
    (rest = [] → processCommand st socket line now
        = (updateActivity st socket now, [(socket, "ERR invalid-dm-format".data)]))
    ∧ (∀ target, rest = [target] → processCommand st socket line now
        = (updateActivity st socket now, [(socket, "ERR invalid-dm-format".data)]))
    ∧ (∀ target t ts, rest = target :: t :: ts → d.username = none →
        processCommand st socket line now
          = (updateActivity st socket now, [(socket, "ERR not-logged-in".data)]))
    ∧ (∀ target t ts u, rest = target :: t :: ts → d.username = some u →
        (target = [] ∨ joinSp (t :: ts) = []) →
        processCommand st socket line now
          = (updateActivity st socket now, [(socket, "ERR invalid-dm-format".data)]))
    ∧ (∀ t ts u, rest = u :: t :: ts → d.username = some u → u ≠ [] →
        joinSp (t :: ts) ≠ [] →
        processCommand st socket line now
          = (updateActivity st socket now, [(socket, "ERR cannot-dm-self".data)]))
    ∧ (∀ target t ts u, rest = target :: t :: ts → d.username = some u →
        target ≠ [] → joinSp (t :: ts) ≠ [] → target ≠ u →
        mapGet st.clients target = none →
        processCommand st socket line now
          = (updateActivity st socket now, [(socket, "ERR user-not-found".data)]))
    ∧ (∀ target t ts u s0, rest = target :: t :: ts → d.username = some u →
        target ≠ [] → joinSp (t :: ts) ≠ [] → target ≠ u →
        mapGet st.clients target = some s0 →
        processCommand st socket line now
          = (updateActivity st socket now,
             [(s0, "DM ".data ++ u ++ [' '] ++ trimL (joinSp (t :: ts))),
              (socket, "DM-SENT ".data ++ target)])) := by
  have hd' := updateActivity_get_self now hd
  refine ⟨?_, ?_, ?_, ?_, ?_, ?_, ?_⟩
  · intro h
    subst h
    exact processCommand_dm_nil st socket now hp
  · intro target h
    subst h
    exact processCommand_dm_one st socket now hp
  · intro target t ts h hu
    subst h
    rw [processCommand_dm st socket now hp]
    simp [handleDirectMessage, hd', hu]
  · intro target t ts u h hu hor
    subst h
    rw [processCommand_dm st socket now hp]
    rcases hor with h1 | h1
    · subst h1
      simp [handleDirectMessage, hd', hu]
    · simp [handleDirectMessage, hd', hu, h1]
  · intro t ts u h hu hune htxt
    subst h
    rw [processCommand_dm st socket now hp]
    have e1 : u.isEmpty = false := by
      rcases u with _ | ⟨c, cs⟩
      · exact absurd rfl hune
      · rfl
    have e2 : (joinSp (t :: ts)).isEmpty = false := by
      rcases he : joinSp (t :: ts) with _ | ⟨c, cs⟩
      · exact absurd he htxt
      · rfl
    simp [handleDirectMessage, hd', hu, e1, e2]
  · intro target t ts u h hu htar htxt hne hs
    subst h
    rw [processCommand_dm st socket now hp]
    have e1 : target.isEmpty = false := by
      rcases target with _ | ⟨c, cs⟩
      · exact absurd rfl htar
      · rfl
    have e2 : (joinSp (t :: ts)).isEmpty = false := by
      rcases he : joinSp (t :: ts) with _ | ⟨c, cs⟩
      · exact absurd he htxt
      · rfl
    have hs' : mapGet (updateActivity st socket now).clients target = none := by
      rw [updateActivity_clients]
      exact hs
    simp [handleDirectMessage, hd', hu, e1, e2, hne, sendPrivateMessage, hs']
  · intro target t ts u s0 h hu htar htxt hne hs
    subst h
    rw [processCommand_dm st socket now hp]
    have hs' : mapGet (updateActivity st socket now).clients target = some s0 := by
      rw [updateActivity_clients]
      exact hs
    exact dm_success_eq _ socket _ target _ s0 u hd' hu htar htxt hne hs'

/-- C5 witness: at the two-user state, `alice` DM-ing herself fails
`cannot-dm-self` (whatever the registry holds), and `alice` DM-ing `bob`
delivers to socket 2 only with a confirmation to socket 1. -/
theorem C5_dm_rules_witness :
    processCommand state4 1 "DM alice hi".data 0
      = (updateActivity state4 1 0, [(1, "ERR cannot-dm-self".data)])
    ∧ processCommand state4 1 "DM bob hi".data 0
      = (updateActivity state4 1 0,
         [(2, "DM ".data ++ "alice".data ++ [' '] ++ trimL (joinSp ["hi".data])),
          (1, "DM-SENT ".data ++ "bob".data)]) :=
  ⟨(C5_dm_rules state4 1 ⟨some "alice".data, 0, []⟩ "DM alice hi".data
      ["alice".data, "hi".data] 0 (by decide) (by decide)).2.2.2.2.1
      "hi".data [] "alice".data rfl rfl (by decide) (by decide),
   (C5_dm_rules state4 1 ⟨some "alice".data, 0, []⟩ "DM bob hi".data
      ["bob".data, "hi".data] 0 (by decide) (by decide)).2.2.2.2.2.2
      "bob".data "hi".data [] "alice".data 2 rfl rfl (by decide) (by decide)
      (by decide) (by decide)⟩

/-- C6 counterexample: the DM text is NOT re-joined with single spaces — JS
`split(' ')` keeps empty tokens, so `join(' ')` restores the original
spacing.  `DM bob hi  there` (two spaces) delivers `DM alice hi  there`
with both spaces, while the claim requires exactly one. -/
theorem C6_cex_spacing_preserved :
    (processCommand state4 1 "DM bob hi  there".data 0).2
      = [(2, "DM alice hi  there".data), (1, "DM-SENT bob".data)]
    ∧ "DM alice hi  there".data ≠ "DM alice hi there".data := by
  decide

/-- C6 (amended): the delivered DM text is the trimmed join of the
single-space-split tokens after the target, and that join reconstructs the
trimmed input line verbatim (`join(' ')` is the left inverse of
`split(' ')`), so internal spacing between words is preserved exactly — not
collapsed to single spaces. -/
theorem C6_dm_text_verbatim (st : ServerState) (socket : Nat) (d : SessionData)
    (line target t : JStr) (ts : List JStr) (now : Nat) (s0 : Nat) (u : JStr)
    (hd : mapGet st.socketData socket = some d) (hu : d.username = some u)
    (hp : (trimL line).splitOn ' ' = "DM".data :: target :: t :: ts)
    (htar : target ≠ []) (htxt : joinSp (t :: ts) ≠ []) (hne : target ≠ u)
    (hs : mapGet st.clients target = some s0) :
    (processCommand st socket line now).2
      = [(s0, "DM ".data ++ u ++ [' '] ++ trimL (joinSp (t :: ts))),
         (socket, "DM-SENT ".data ++ target)]
    ∧ trimL line = "DM ".data ++ target ++ ' ' :: joinSp (t :: ts) := by
  constructor
  · have hd' := updateActivity_get_self now hd
    have hs' : mapGet (updateActivity st socket now).clients target = some s0 := by
      rw [updateActivity_clients]
      exact hs
    rw [processCommand_dm st socket now hp,
      dm_success_eq _ socket _ target _ s0 u hd' hu htar htxt hne hs']
  · have hid : [' '].intercalate ((trimL line).splitOn ' ') = trimL line :=
      List.intercalate_splitOn (trimL line) ' '
    rw [hp] at hid
    have hjoin : joinSp ("DM".data :: target :: t :: ts) = trimL line := hid
    rw [joinSp_cons, joinSp_cons] at hjoin
    exact hjoin.symm

/-- C6 witness: the concrete double-spaced input — the delivered text keeps
the two spaces, and the joined tokens reconstruct the trimmed line. -/
theorem C6_dm_text_verbatim_witness :
    (processCommand state4 1 "DM bob hi  there".data 0).2
      = [(2, "DM ".data ++ "alice".data ++ [' ']
            ++ trimL (joinSp ["hi".data, [], "there".data])),
         (1, "DM-SENT ".data ++ "bob".data)]
    ∧ trimL "DM bob hi  there".data
        = "DM ".data ++ "bob".data ++ ' ' :: joinSp ["hi".data, [], "there".data] :=
  C6_dm_text_verbatim state4 1 ⟨some "alice".data, 0, []⟩
    "DM bob hi  there".data "bob".data "hi".data [[], "there".data] 0 2
    "alice".data (by decide) (by decide) (by decide) (by decide) (by decide)
    (by decide) (by decide)

/-- C9: when a connection's accumulated buffer exceeds 4096 code units with
no newline, the `'data'` handler replies `ERR message-too-long` and resets
the buffer to empty; the session stays in `socketData` (the connection is
not closed), and any subsequent complete line on the same connection is
processed exactly as `processCommand` would process it. -/
theorem C9_buffer_overflow (st : ServerState) (socket : Nat)
    (data : SessionData) (chunk : JStr) (now : Nat)
    (hd : mapGet st.socketData socket = some data)
    (hnl : '\n' ∉ data.buffer ++ chunk)
    (hlen : 4096 < (data.buffer ++ chunk).length) :
    dataEvent st socket chunk now
      = (setBuffer st socket [], [(socket, "ERR message-too-long".data)])
    ∧ mapGet (setBuffer st socket []).socketData socket
        = some { data with buffer := [] }
    ∧ ∀ l now2, '\n' ∉ l →
        dataEvent (setBuffer st socket []) socket (l ++ ['\n']) now2
          = processCommand (setBuffer st socket []) socket l now2 := by
  have hset : mapGet (setBuffer st socket (data.buffer ++ chunk)).socketData
      socket = some { data with buffer := data.buffer ++ chunk } :=
    setBuffer_get_self _ hd
  refine ⟨?_, setBuffer_get_self [] hd, ?_⟩
  · have hdrain : drainLoop (data.buffer.length + chunk.length + 1)
        (setBuffer st socket (data.buffer ++ chunk)) socket now []
        = (setBuffer st socket (data.buffer ++ chunk), []) :=
      drainLoop_exit _ now [] hset (takeLine_eq_none hnl)
    simp only [dataEvent, hd, hdrain, hset]
    rw [if_pos hlen, setBuffer_setBuffer]
    simp
  · intro l now2 hnl2
    exact dataEvent_single_line (setBuffer_get_self [] hd) rfl hnl2 now2

/-- C9 witness: a 4097-byte newline-free chunk on the fresh connection of
socket 1 triggers the overflow reply with reset, and the next complete
`PING` line is processed normally. -/
theorem C9_buffer_overflow_witness :
    dataEvent state1 1 (List.replicate 4097 'a') 0
      = (setBuffer state1 1 [], [(1, "ERR message-too-long".data)])
    ∧ dataEvent (setBuffer state1 1 []) 1 ("PING".data ++ ['\n']) 0
      = processCommand (setBuffer state1 1 []) 1 "PING".data 0 := by
  have hnl : '\n' ∉ ([] : JStr) ++ List.replicate 4097 'a' := by
    intro h
    rw [List.nil_append, List.mem_replicate] at h
    exact absurd h.2 (by decide)
  have hlen : 4096 < (([] : JStr) ++ List.replicate 4097 'a').length := by
    rw [List.nil_append, List.length_replicate]
    decide
  exact ⟨(C9_buffer_overflow state1 1 ⟨none, 0, []⟩ (List.replicate 4097 'a') 0
      rfl hnl hlen).1,
    (C9_buffer_overflow state1 1 ⟨none, 0, []⟩ (List.replicate 4097 'a') 0
      rfl hnl hlen).2.2 "PING".data 0 (by decide)⟩

end ChatServer
